import Mathlib

/-!
Verification of the SocialSense like-bot processing engine.

Shallow embedding of the core modules:
* `like_bot/config.py` — timing and retry constants;
* `like_bot/decorators/retry.py` — `RetryHandler` (classification, backoff,
  bounded retries);
* `like_bot/instagram_client.py` — `process_user`, `_like_post`,
  `periodic_update_metrics`, and the semaphore-bounded concurrency;
* `like_bot/database.py` — `insert_users`, `update_user_status`,
  `get_pending_users` over the four-table schema.

Machine reals are modelled as `ℚ`, timestamps as `Nat` (seconds), statuses as
the strings stored in the `status` column.
-/

namespace SocialSense

/-! ### Constants from `like_bot/config.py` -/

def MAX_RETRIES : Nat := 5

def NETWORK_MAX_RETRIES : Nat := 10

def MIN_DELAY : ℚ := 5

def MAX_DELAY : ℚ := 60

def RATE_LIMIT_DELAY : ℚ := 60

def CONCURRENCY_LIMIT : Nat := 5

/-! ### `like_bot/enums/processing_status.py` — the `.value` strings -/

def statusPending : String := "pending"

def statusLiked : String := "liked"

def statusSkipped : String := "skipped"

def statusError : String := "error"

def statusRetry : String := "retry"

/-! ### `like_bot/decorators/retry.py` — `RetryHandler`

An exception is modelled by the attributes `RetryHandler` inspects:
whether its class is in `exceptions_to_retry` (`ConnectionException`,
`ClientError`, `aiohttp.ClientError`, `socket.gaierror`, `TimeoutError`),
its `status` attribute, its `response.status`, whether it is an
instaloader `ConnectionException`, and the leading digits of `str(e)`.
`ProfileNotExistsException` is not in the tuple, hence `retryable = false`
for it. -/

structure PyError where
  retryable : Bool
  statusAttr : Nat
  responseStatus : Nat
  isConnErr : Bool
  strDigits : Nat
deriving DecidableEq

/-- The post-loop `raise Exception(...)` at `retry.py:76`, reachable only
when `max_retries = 0`. -/
def exhaustedError : PyError := ⟨false, 0, 0, false, 0⟩

structure RetryCfg where
  maxRetries : Nat
  initialDelay : ℚ
  rateLimitCodes : List Nat

/-- The module-level `retry_handler = RetryHandler(max_retries=NETWORK_MAX_RETRIES)`
of `instagram_client.py:59`, with the default `initial_delay = MIN_DELAY` and
default `rate_limit_codes = [401, 429]`. -/
def netRetryCfg : RetryCfg := ⟨NETWORK_MAX_RETRIES, MIN_DELAY, [401, 429]⟩

/-- `RetryHandler._extract_status_code`. -/
def extract_status_code (e : PyError) : Nat :=
  let s1 := e.statusAttr
  let s2 := if s1 == 0 then e.responseStatus else s1
  if s2 == 0 && e.isConnErr then e.strDigits else s2

/-- `status_code in self._rate_limit_codes` at `retry.py:65`. -/
def is_rate_limit (cfg : RetryCfg) (e : PyError) : Bool :=
  cfg.rateLimitCodes.contains (extract_status_code e)

/-- `RetryHandler._calculate_delay`: `min(base * 2**attempt + uniform(0,1), MAX_DELAY)`
with `base = RATE_LIMIT_DELAY` when rate-limited, else `initial_delay`.
The random jitter is passed in explicitly. -/
def calculate_delay (cfg : RetryCfg) (attempt : Nat) (isRL : Bool) (jitter : ℚ) : ℚ :=
  let base := if isRL then RATE_LIMIT_DELAY else cfg.initialDelay
  min (base * 2 ^ attempt + jitter) MAX_DELAY

/-- Outcome of one call of the wrapped coroutine. -/
inductive Attempt (α : Type) where
  | ok (a : α)
  | exn (e : PyError)

/-- Result of `_execute_with_retries`: the value returned or exception
propagated, together with the backoff delays slept (one per retry). -/
structure RetryRun (α : Type) where
  result : Except PyError α
  sleeps : List ℚ

/-- The `for attempt in range(self._max_retries)` loop of
`_execute_with_retries` (`retry.py:60-76`): `i` is the current attempt
index, `fuel` the number of loop iterations left. A non-retryable
exception is not caught and propagates at once; on the last iteration a
retryable exception is re-raised without sleeping; otherwise the computed
delay is slept and the next attempt made. -/
def execute_aux (cfg : RetryCfg) (attempts : Nat → Attempt α) (jitter : Nat → ℚ) :
    Nat → Nat → RetryRun α
  | _, 0 => ⟨.error exhaustedError, []⟩
  | i, fuel + 1 =>
    match attempts i with
    | .ok a => ⟨.ok a, []⟩
    | .exn e =>
      if e.retryable = false then ⟨.error e, []⟩
      else if fuel = 0 then ⟨.error e, []⟩
      else
        let d := calculate_delay cfg i (is_rate_limit cfg e) (jitter i)
        let r := execute_aux cfg attempts jitter (i + 1) fuel
        ⟨r.result, d :: r.sleeps⟩

/-- `RetryHandler._execute_with_retries`. -/
def execute_with_retries (cfg : RetryCfg) (attempts : Nat → Attempt α) (jitter : Nat → ℚ) :
    RetryRun α :=
  execute_aux cfg attempts jitter 0 cfg.maxRetries

/-! ### `like_bot/instagram_client.py` — the per-user pipeline

`process_user` (lines 408-526) is embedded as a pure function of an
environment recording the outcomes of its external calls. -/

/-- The fields of `instaloader.Profile` that `process_user` reads. -/
structure Profile where
  userid : Nat
  is_private : Bool
  mediacount : Nat
deriving DecidableEq

/-- One post yielded by `_fetch_posts`, after `post.reload`. -/
structure Post where
  viewer_has_liked : Bool
deriving DecidableEq

/-- Outcome of `self.fetch_profile(username, ...)` as seen by `process_user`
(after the `@async_retrying` decorator has run): a profile, a
`ProfileNotExistsException`, or any other exception propagating out. -/
inductive FetchOutcome where
  | ok (p : Profile)
  | notFound
  | raised
deriving DecidableEq

/-- Outcome of one `custom_like_media` call inside `_like_post`: a returned
boolean, or a raised `asyncio.TimeoutError` / `ClientError`. -/
inductive LikeAttempt where
  | done (liked : Bool)
  | transientError
deriving DecidableEq

/-- Result of `_like_post`: the returned triple plus the number of
`custom_like_media` calls made and the backoff delays slept. -/
structure LikeRun where
  liked : Bool
  retry_count : Nat
  status : String
  calls : Nat
  sleeps : List ℚ
deriving DecidableEq

/-- The `for attempt in range(MAX_RETRIES - retry_count)` loop of
`_like_post` (`instagram_client.py:541-550`): `attempt` is the loop index,
`fuel` the iterations left, `rc` the current `retry_count`. Each raised
transient error increments `rc` and sleeps
`min(RATE_LIMIT_DELAY * 2**attempt + uniform(0,1), MAX_DELAY)`. -/
def like_post_aux (attempts : Nat → LikeAttempt) (jitter : Nat → ℚ) :
    Nat → Nat → Nat → LikeRun
  | _, 0, rc => ⟨false, rc, statusError, 0, []⟩
  | attempt, fuel + 1, rc =>
    match attempts attempt with
    | .done liked => ⟨liked, rc, if liked then statusLiked else statusError, 1, []⟩
    | .transientError =>
      let d := min (RATE_LIMIT_DELAY * 2 ^ attempt + jitter attempt) MAX_DELAY
      let r := like_post_aux attempts jitter (attempt + 1) fuel (rc + 1)
      ⟨r.liked, r.retry_count, r.status, r.calls + 1, d :: r.sleeps⟩

/-- `InstagramClient._like_post`: the range bound `MAX_RETRIES - retry_count`
is computed once on entry (Nat subtraction matches Python `range` of a
non-positive count being empty). -/
def like_post (attempts : Nat → LikeAttempt) (jitter : Nat → ℚ) (retry_count : Nat) : LikeRun :=
  like_post_aux attempts jitter 0 (MAX_RETRIES - retry_count) retry_count

/-- Environment of one `process_user` call: the `retry_count` read from
`processed_users`, the fetch outcome, the two follower-set membership tests,
the finite post sequence, and the like-attempt outcomes. -/
structure ProcEnv where
  dbRetryCount : Nat
  fetch : FetchOutcome
  isFollowerBefore : Bool
  posts : List Post
  likeAttempts : Nat → LikeAttempt
  likeJitter : Nat → ℚ
  isFollowerAfter : Bool

/-- Observable effects of one `process_user` call: the
`db.update_user_status` calls made (status string and retry count, in
order), the `progress.update(task_id, advance=1)` count, the
`self._processed_count += 1` count, the number of `custom_like_media`
calls, and the returned re-queue boolean. -/
structure ProcResult where
  statusWrites : List (String × Nat)
  progressAdvances : Nat
  processedIncrements : Nat
  likeCalls : Nat
  requeue : Bool
deriving DecidableEq

/-- `InstagramClient.process_user` (`instagram_client.py:408-526`).
`Except.error ()` models an exception propagating out of the coroutine
(only `ProfileNotExistsException` is caught around the fetch). -/
def process_user (env : ProcEnv) : Except Unit ProcResult :=
  let rc := env.dbRetryCount
  if rc ≥ MAX_RETRIES then
    -- lines 442-449: max-retries branch
    .ok ⟨[(statusError, rc)], 1, 1, 0, false⟩
  else
    match env.fetch with
    | .raised => .error ()
    | .notFound =>
      -- lines 464-471: ProfileNotExistsException branch
      .ok ⟨[(statusSkipped, rc)], 1, 1, 0, false⟩
    | .ok profile =>
      if profile.is_private || profile.mediacount == 0 then
        -- lines 473-482: private / no-posts branch
        .ok ⟨[(statusSkipped, rc)], 1, 1, 0, false⟩
      else if env.isFollowerBefore then
        -- lines 484-487: already-follower branch returns immediately
        .ok ⟨[], 0, 0, 0, false⟩
      else
        match env.posts.find? (fun p => !p.viewer_has_liked) with
        | some _ =>
          -- lines 489-516: like the first not-yet-liked post
          let r := like_post env.likeAttempts env.likeJitter rc
          .ok ⟨[(r.status, r.retry_count)], 1, 1, r.calls, !env.isFollowerAfter⟩
        | none =>
          -- lines 517-523: for-else branch, all posts already liked
          .ok ⟨[(statusSkipped, rc)], 1, 1, 0, !env.isFollowerAfter⟩

/-- The branch of `process_user` at lines 484-487: fetch succeeded, the
profile is eligible, but the target already follows the acting account. -/
def alreadyFollowerBranch (env : ProcEnv) : Prop :=
  env.dbRetryCount < MAX_RETRIES ∧
    (∃ p, env.fetch = .ok p ∧ p.is_private = false ∧ p.mediacount ≠ 0) ∧
    env.isFollowerBefore = true

/-! ### `periodic_update_metrics` (`instagram_client.py:332-344`)

The body is `while True: await update_follower_status(...); await
update_metrics(...); await sleep(interval)` with no exception handling.
A cycle either completes or raises; the model runs a finite list of cycle
outcomes. -/

inductive CycleOutcome where
  | ok
  | fail
deriving DecidableEq

/-- How far the metrics loop got: completed-cycle count and whether an
exception propagated out of the loop. -/
structure MetricsRun where
  cyclesCompleted : Nat
  raised : Bool
deriving DecidableEq

/-- `periodic_update_metrics` on a finite schedule of cycle outcomes: the
first failing cycle raises out of the `while True` loop, so no later cycle
runs; an exhausted schedule means the loop was still running. -/
def periodic_update_metrics : List CycleOutcome → MetricsRun
  | [] => ⟨0, false⟩
  | .fail :: _ => ⟨0, true⟩
  | .ok :: rest =>
    let r := periodic_update_metrics rest
    ⟨r.cyclesCompleted + 1, r.raised⟩

/-! ### The concurrency gate (`instagram_client.py:86` and `424`)

`asyncio.Semaphore(concurrency_limit)` guards the whole body of
`process_user`. One task per username is spawned (`cli.py:381-384`); the
interleaving is modelled as a labelled transition system. -/

inductive TaskPhase where
  | waiting
  | inside
  | done
deriving DecidableEq

/-- Scheduler state: the phase of each spawned task and the semaphore's
free-slot counter. -/
structure SchedState where
  tasks : List TaskPhase
  avail : Nat
deriving DecidableEq

/-- All tasks spawned and parked on `async with self._semaphore`; the
counter starts at `concurrency_limit`. -/
def initState (n limit : Nat) : SchedState :=
  ⟨List.replicate n .waiting, limit⟩

/-- One scheduler step: a waiting task acquires the semaphore when a slot
is free, or a task inside the guarded section leaves and releases it. -/
inductive SchedStep : SchedState → SchedState → Prop where
  | acquire (tasks : List TaskPhase) (avail : Nat) (i : Nat)
      (hw : tasks.get? i = some .waiting) (ha : 0 < avail) :
      SchedStep ⟨tasks, avail⟩ ⟨tasks.set i .inside, avail - 1⟩
  | release (tasks : List TaskPhase) (avail : Nat) (i : Nat)
      (hi : tasks.get? i = some .inside) :
      SchedStep ⟨tasks, avail⟩ ⟨tasks.set i .done, avail + 1⟩

def isInside (t : TaskPhase) : Bool := t == .inside

/-- Number of tasks currently inside the semaphore-guarded section. -/
def insideCount (s : SchedState) : Nat := s.tasks.countP isInside

/-! ### `like_bot/database.py` — relational state

The `target_users` and `processed_users` tables (`_create_tables`,
lines 295-325). `added_at`, `processed_at` and `last_checked` are
`CURRENT_TIMESTAMP` values, modelled as `Nat` seconds passed in as `now`.
The `UNIQUE` constraints are realised by the operations themselves. -/

structure TargetUser where
  id : Nat
  username : String
  addedAt : Nat
  lastChecked : Option Nat
deriving DecidableEq

structure ProcessedUser where
  targetUserId : Nat
  status : String
  processedAt : Nat
  retryCount : Nat
deriving DecidableEq

structure DB where
  targetUsers : List TargetUser
  processedUsers : List ProcessedUser
  nextId : Nat
deriving DecidableEq

def DB.empty : DB := ⟨[], [], 1⟩

/-- One `INSERT INTO target_users (username) VALUES ($1) ON CONFLICT
(username) DO NOTHING` of the `executemany` at `database.py:340-343`:
later statements of the batch see rows inserted by earlier ones. -/
def insertOne (now : Nat) (db : DB) (username : String) : DB :=
  if db.targetUsers.any (fun t => t.username == username) then db
  else ⟨db.targetUsers ++ [⟨db.nextId, username, now, none⟩],
        db.processedUsers, db.nextId + 1⟩

/-- What `Database.insert_users` produces: the new state, the
`total_count` it passes to `async_logger.info`, and the Python function's
return value (`None`, as the function has no `return` statement). -/
structure InsertOutcome where
  db : DB
  loggedTotalCount : Nat
  returned : Option Nat
deriving DecidableEq

/-- `Database.insert_users` (`database.py:327-350`). -/
def insert_users (usernames : List String) (now : Nat) (db : DB) : InsertOutcome :=
  let db2 := usernames.foldl (insertOne now) db
  ⟨db2, db2.targetUsers.length, none⟩

/-- What `Database.update_user_status` produces: the new state and whether
the "User not found for status update" warning was logged. -/
structure UpdateOutcome where
  db : DB
  warned : Bool
deriving DecidableEq

/-- `Database.update_user_status` (`database.py:352-396`): look up the
target id by username; if absent, log a warning and return; else upsert
the `processed_users` row (`ON CONFLICT (target_user_id) DO UPDATE SET
status, retry_count, processed_at`) and stamp `last_checked`. -/
def update_user_status (username status : String) (retry_count now : Nat) (db : DB) :
    UpdateOutcome :=
  match db.targetUsers.find? (fun t => t.username == username) with
  | none => ⟨db, true⟩
  | some t =>
    let processed :=
      if db.processedUsers.any (fun p => p.targetUserId == t.id) then
        db.processedUsers.map (fun p =>
          if p.targetUserId == t.id then ⟨t.id, status, now, retry_count⟩ else p)
      else
        db.processedUsers ++ [⟨t.id, status, now, retry_count⟩]
    ⟨⟨db.targetUsers.map (fun u =>
        if u.id == t.id then { u with lastChecked := some now } else u),
      processed, db.nextId⟩, false⟩

/-- The `WHERE` clause of `get_pending_users` (`database.py:408-416`):
row absent after the `LEFT JOIN`, or status `pending`, or status `retry`
with `processed_at < CURRENT_TIMESTAMP - INTERVAL '1 hour'`. -/
def pendingPredicate (now : Nat) (db : DB) (t : TargetUser) : Bool :=
  match db.processedUsers.find? (fun p => p.targetUserId == t.id) with
  | none => true
  | some p =>
    p.status == statusPending ||
      (p.status == statusRetry && p.processedAt + 3600 < now)

/-- `Database.get_pending_users` (`database.py:398-427`): filter per the
`WHERE` clause, `ORDER BY t.added_at ASC`, project the usernames. -/
def get_pending_users (now : Nat) (db : DB) : List String :=
  (((db.targetUsers.mergeSort (fun a b => a.addedAt ≤ b.addedAt)).filter
      (pendingPredicate now db)).map (fun t => t.username))

/-- Usernames of the `target_users` table. -/
def DB.names (db : DB) : List String := db.targetUsers.map (fun t => t.username)

/-! ### Concrete scenarios used by counterexamples and witnesses -/

/-- A user whose eligible public profile already follows the acting
account: fetch succeeds, not private, has posts, first follower check
is positive. -/
def envFollowerW : ProcEnv :=
  ⟨0, .ok ⟨42, false, 3⟩, true, [⟨false⟩], fun _ => .done true, fun _ => 0, true⟩

/-- The `"ghost"` scenario: profile fetch raises
`ProfileNotExistsException`, stored `retry_count` is `0`. -/
def envGhostW : ProcEnv :=
  ⟨0, .notFound, false, [], fun _ => .done true, fun _ => 0, false⟩

/-- The `"locked"` scenario: eligible profile with an unliked post, every
`custom_like_media` call raises a transient error, stored `retry_count`
is `0`. -/
def envLockedW : ProcEnv :=
  ⟨0, .ok ⟨9, false, 2⟩, false, [⟨false⟩], fun _ => .transientError, fun _ => 0, false⟩

/-- A user whose stored `retry_count` already equals `MAX_RETRIES`. -/
def envCapW : ProcEnv :=
  ⟨MAX_RETRIES, .ok ⟨1, false, 1⟩, false, [], fun _ => .done true, fun _ => 0, false⟩

/-- An authentication-required failure as the retry handler sees it: its
class (`ConnectionException`) is in `exceptions_to_retry` and its status
code is `401`. -/
def authErr : PyError := ⟨true, 401, 0, true, 0⟩

/-- A generic transient network failure (status `500`, retryable). -/
def transientErr : PyError := ⟨true, 0, 0, true, 500⟩

/-- A fetch that fails transiently on the first nine attempts and
succeeds on the tenth. -/
def fetchAttemptsW : Nat → Attempt Profile :=
  fun i => if i < 9 then .exn transientErr else .ok ⟨3, false, 1⟩

/-- A one-row database holding only the user `"alice"`. -/
def dbAliceW : DB := ⟨[⟨1, "alice", 0, none⟩], [], 2⟩

/-! ## Helper lemmas -/

theorem countP_replicate_waiting (n : Nat) :
    (List.replicate n TaskPhase.waiting).countP isInside = 0 := by
  induction n with
  | zero => rfl
  | succ n ih => simp [List.replicate, List.countP_cons, ih, isInside]

theorem sched_step_invariant {s s' : SchedState} {limit : Nat}
    (h : SchedStep s s') (hinv : insideCount s + s.avail = limit) :
    insideCount s' + s'.avail = limit := by
  cases h with
  | acquire tasks avail i hw ha =>
    rw [List.get?_eq_getElem?] at hw
    obtain ⟨hlt, hget⟩ := List.getElem?_eq_some.mp hw
    have hset := List.countP_set isInside tasks i TaskPhase.inside hlt
    rw [hget] at hset
    simp only [isInside] at hset
    simp only [insideCount] at hinv ⊢
    simp at hset
    omega
  | release tasks avail i hi =>
    rw [List.get?_eq_getElem?] at hi
    obtain ⟨hlt, hget⟩ := List.getElem?_eq_some.mp hi
    have hmem : TaskPhase.inside ∈ tasks := hget ▸ List.getElem_mem hlt
    have hpos : 0 < tasks.countP isInside :=
      List.countP_pos_iff.mpr ⟨TaskPhase.inside, hmem, by simp [isInside]⟩
    have hset := List.countP_set isInside tasks i TaskPhase.done hlt
    rw [hget] at hset
    simp only [isInside] at hset
    simp only [insideCount] at hinv ⊢
    simp at hset
    omega

theorem sched_reach_invariant {s0 s : SchedState} {limit : Nat}
    (h : Relation.ReflTransGen SchedStep s0 s)
    (hinv : insideCount s0 + s0.avail = limit) :
    insideCount s + s.avail = limit := by
  induction h with
  | refl => exact hinv
  | tail _ hstep ih => exact sched_step_invariant hstep ih

theorem like_post_aux_rc_bounds (attempts : Nat → LikeAttempt) (jitter : Nat → ℚ) :
    ∀ (fuel attempt rc : Nat),
      rc ≤ (like_post_aux attempts jitter attempt fuel rc).retry_count ∧
      (like_post_aux attempts jitter attempt fuel rc).retry_count ≤ rc + fuel := by
  intro fuel
  induction fuel with
  | zero => intro attempt rc; simp [like_post_aux]
  | succ fuel ih =>
    intro attempt rc
    cases hat : attempts attempt with
    | done liked => simp [like_post_aux, hat]
    | transientError =>
      have := ih (attempt + 1) (rc + 1)
      simp only [like_post_aux, hat]
      omega

theorem execute_aux_sleeps_le (cfg : RetryCfg) (attempts : Nat → Attempt α)
    (jitter : Nat → ℚ) :
    ∀ (fuel i : Nat), (execute_aux cfg attempts jitter i fuel).sleeps.length ≤ fuel - 1 := by
  intro fuel
  induction fuel with
  | zero => intro i; simp [execute_aux]
  | succ fuel ih =>
    intro i
    cases hat : attempts i with
    | ok a => simp [execute_aux, hat]
    | exn e =>
      by_cases hre : e.retryable = false
      · simp [execute_aux, hat, hre]
      · by_cases hf : fuel = 0
        · simp [execute_aux, hat, hre, hf]
        · have := ih (i + 1)
          simp only [execute_aux, hat, if_neg hre, if_neg hf, List.length_cons]
          omega

/-- Exhaustive description of the value returned by a `process_user` call
that did not raise: one disjunct per source branch. -/
theorem process_user_ok_shape (env : ProcEnv) (r : ProcResult)
    (h : process_user env = Except.ok r) :
    (env.dbRetryCount ≥ MAX_RETRIES ∧
      r = ⟨[(statusError, env.dbRetryCount)], 1, 1, 0, false⟩) ∨
    (env.dbRetryCount < MAX_RETRIES ∧ env.fetch = .notFound ∧
      r = ⟨[(statusSkipped, env.dbRetryCount)], 1, 1, 0, false⟩) ∨
    (env.dbRetryCount < MAX_RETRIES ∧
      (∃ p, env.fetch = .ok p ∧ (p.is_private || p.mediacount == 0) = true) ∧
      r = ⟨[(statusSkipped, env.dbRetryCount)], 1, 1, 0, false⟩) ∨
    (alreadyFollowerBranch env ∧ r = ⟨[], 0, 0, 0, false⟩) ∨
    (env.dbRetryCount < MAX_RETRIES ∧ env.isFollowerBefore = false ∧
      (∃ p, env.fetch = .ok p) ∧
      (∃ post, env.posts.find? (fun q => !q.viewer_has_liked) = some post) ∧
      r = ⟨[((like_post env.likeAttempts env.likeJitter env.dbRetryCount).status,
             (like_post env.likeAttempts env.likeJitter env.dbRetryCount).retry_count)],
           1, 1, (like_post env.likeAttempts env.likeJitter env.dbRetryCount).calls,
           !env.isFollowerAfter⟩) ∨
    (env.dbRetryCount < MAX_RETRIES ∧ env.isFollowerBefore = false ∧
      (∃ p, env.fetch = .ok p) ∧
      env.posts.find? (fun q => !q.viewer_has_liked) = none ∧
      r = ⟨[(statusSkipped, env.dbRetryCount)], 1, 1, 0, !env.isFollowerAfter⟩) := by
  simp only [process_user] at h
  split at h
  next hrc =>
    injection h with h
    subst h
    exact Or.inl ⟨hrc, rfl⟩
  next hrc =>
    have hrc' : env.dbRetryCount < MAX_RETRIES := by omega
    split at h
    next heq => exact absurd h (by simp)
    next heq =>
      injection h with h
      subst h
      exact Or.inr (Or.inl ⟨hrc', heq, rfl⟩)
    next p heq =>
      split at h
      next hpriv =>
        injection h with h
        subst h
        exact Or.inr (Or.inr (Or.inl ⟨hrc', ⟨p, heq, hpriv⟩, rfl⟩))
      next hpriv =>
        split at h
        next hfol =>
          injection h with h
          subst h
          have hpr : p.is_private = false ∧ p.mediacount ≠ 0 := by
            simpa using hpriv
          exact Or.inr (Or.inr (Or.inr (Or.inl
            ⟨⟨hrc', ⟨p, heq, hpr.1, hpr.2⟩, hfol⟩, rfl⟩)))
        next hfol =>
          have hfol' : env.isFollowerBefore = false := by
            simpa using hfol
          split at h
          next post hfind =>
            injection h with h
            subst h
            exact Or.inr (Or.inr (Or.inr (Or.inr (Or.inl
              ⟨hrc', hfol', ⟨p, heq⟩, ⟨post, hfind⟩, rfl⟩))))
          next hfind =>
            injection h with h
            subst h
            exact Or.inr (Or.inr (Or.inr (Or.inr (Or.inr
              ⟨hrc', hfol', ⟨p, heq⟩, hfind, rfl⟩))))

/-! ## Claim C1 — single-exit-point discipline of `process_user` -/

/-- C1 counterexample: in the branch where the target already follows the
acting account (`instagram_client.py:484-487`), `process_user` returns
with zero `db.update_user_status` calls and zero progress-counter
increments — not exactly one of each. -/
theorem process_user_follower_branch_counterexample :
    process_user envFollowerW = Except.ok ⟨[], 0, 0, 0, false⟩ ∧
    alreadyFollowerBranch envFollowerW ∧
    (∀ r, process_user envFollowerW = Except.ok r →
      r.statusWrites.length = 0 ∧ r.progressAdvances = 0 ∧ r.processedIncrements = 0) := by
  refine ⟨rfl, ⟨by decide, ⟨⟨42, false, 3⟩, rfl, rfl, by decide⟩, rfl⟩, ?_⟩
  intro r hr
  have : (⟨[], 0, 0, 0, false⟩ : ProcResult) = r := by
    have h0 : process_user envFollowerW = Except.ok ⟨[], 0, 0, 0, false⟩ := rfl
    rw [h0] at hr
    injection hr
  subst this
  exact ⟨rfl, rfl, rfl⟩

/-- C1 amended: every branch of `process_user` that ends in a terminal
status performs exactly one status-store update and exactly one
progress-counter increment, except the branch where the target is already
a follower of the acting account, which returns without any status update
or progress increment. -/
theorem process_user_single_exit (env : ProcEnv) (r : ProcResult)
    (h : process_user env = Except.ok r) :
    (alreadyFollowerBranch env →
      r.statusWrites = [] ∧ r.progressAdvances = 0 ∧ r.processedIncrements = 0) ∧
    (¬ alreadyFollowerBranch env →
      r.statusWrites.length = 1 ∧ r.progressAdvances = 1 ∧ r.processedIncrements = 1) := by
  rcases process_user_ok_shape env r h with
    ⟨hrc, rfl⟩ | ⟨hrc, hnf, rfl⟩ | ⟨hrc, ⟨p, hp, hpriv⟩, rfl⟩ | ⟨ha, rfl⟩ |
    ⟨hrc, hfol, ⟨p, hp⟩, ⟨post, hfind⟩, rfl⟩ | ⟨hrc, hfol, ⟨p, hp⟩, hfind, rfl⟩
  · exact ⟨fun ha => absurd ha.1 (by omega), fun _ => ⟨rfl, rfl, rfl⟩⟩
  · refine ⟨fun ha => ?_, fun _ => ⟨rfl, rfl, rfl⟩⟩
    obtain ⟨-, ⟨q, hq, -, -⟩, -⟩ := ha
    rw [hnf] at hq
    exact FetchOutcome.noConfusion hq
  · refine ⟨fun ha => ?_, fun _ => ⟨rfl, rfl, rfl⟩⟩
    obtain ⟨-, ⟨q, hq, hq1, hq2⟩, -⟩ := ha
    rw [hp] at hq
    injection hq with hq
    subst hq
    simp [hq1] at hpriv
    exact (hq2 hpriv).elim
  · exact ⟨fun _ => ⟨rfl, rfl, rfl⟩, fun hna => absurd ha hna⟩
  · refine ⟨fun ha => ?_, fun _ => ⟨rfl, rfl, rfl⟩⟩
    obtain ⟨-, -, hb⟩ := ha
    rw [hfol] at hb
    exact Bool.noConfusion hb
  · refine ⟨fun ha => ?_, fun _ => ⟨rfl, rfl, rfl⟩⟩
    obtain ⟨-, -, hb⟩ := ha
    rw [hfol] at hb
    exact Bool.noConfusion hb

/-- Witness for C1 amended: the not-found branch for `envGhostW` makes
exactly one status write and one progress increment. -/
theorem process_user_single_exit_witness :
    process_user envGhostW = Except.ok ⟨[(statusSkipped, 0)], 1, 1, 0, false⟩ ∧
    ((⟨[(statusSkipped, 0)], 1, 1, 0, false⟩ : ProcResult).statusWrites.length = 1 ∧
      (⟨[(statusSkipped, 0)], 1, 1, 0, false⟩ : ProcResult).progressAdvances = 1 ∧
      (⟨[(statusSkipped, 0)], 1, 1, 0, false⟩ : ProcResult).processedIncrements = 1) :=
  ⟨rfl,
    (process_user_single_exit envGhostW ⟨[(statusSkipped, 0)], 1, 1, 0, false⟩ rfl).2
      (fun ha => by
        obtain ⟨-, ⟨q, hq, -, -⟩, -⟩ := ha
        exact FetchOutcome.noConfusion hq)⟩

/-! ## Claim C3 — `retry_count` is monotone and capped at `MAX_RETRIES` -/

/-- C3: `retry_count` never decreases across a `_like_post` run and never
exceeds `max rc MAX_RETRIES` (hence never exceeds `MAX_RETRIES = 5` when
starting at or below it); every status write of `process_user` carries a
retry count between the stored one and the cap; once the stored count has
reached the cap, `process_user` writes the terminal error status and makes
no like attempt; and in the always-transient scenario starting at zero the
entity ends with the error status and `retry_count = MAX_RETRIES = 5`. -/
theorem retry_count_monotone_capped (attempts : Nat → LikeAttempt) (jitter : Nat → ℚ)
    (rc : Nat) (env : ProcEnv) (hcap : env.dbRetryCount ≥ MAX_RETRIES) :
    rc ≤ (like_post attempts jitter rc).retry_count ∧
    (like_post attempts jitter rc).retry_count ≤ max rc MAX_RETRIES ∧
    (∀ env' r, process_user env' = Except.ok r → ∀ w ∈ r.statusWrites,
      env'.dbRetryCount ≤ w.2 ∧ w.2 ≤ max env'.dbRetryCount MAX_RETRIES) ∧
    process_user env = Except.ok ⟨[(statusError, env.dbRetryCount)], 1, 1, 0, false⟩ ∧
    process_user envLockedW =
      Except.ok ⟨[(statusError, MAX_RETRIES)], 1, 1, MAX_RETRIES, true⟩ := by
  have hb := like_post_aux_rc_bounds attempts jitter (MAX_RETRIES - rc) 0 rc
  refine ⟨hb.1, by simp only [like_post]; have := hb.2; omega, ?_, ?_, ?_⟩
  · intro env' r h w hw
    rcases process_user_ok_shape env' r h with
      ⟨hrc, rfl⟩ | ⟨hrc, hnf, rfl⟩ | ⟨hrc, hp, rfl⟩ | ⟨ha, rfl⟩ |
      ⟨hrc, hfol, hp, hfind, rfl⟩ | ⟨hrc, hfol, hp, hfind, rfl⟩
    · simp only [List.mem_singleton] at hw
      subst hw
      exact ⟨le_refl _, le_max_left _ _⟩
    · simp only [List.mem_singleton] at hw
      subst hw
      exact ⟨le_refl _, le_max_left _ _⟩
    · simp only [List.mem_singleton] at hw
      subst hw
      exact ⟨le_refl _, le_max_left _ _⟩
    · simp at hw
    · simp only [List.mem_singleton] at hw
      subst hw
      have hb' := like_post_aux_rc_bounds env'.likeAttempts env'.likeJitter
        (MAX_RETRIES - env'.dbRetryCount) 0 env'.dbRetryCount
      exact ⟨hb'.1, by have := hb'.2; simp only [like_post]; omega⟩
    · simp only [List.mem_singleton] at hw
      subst hw
      exact ⟨le_refl _, le_max_left _ _⟩
  · simp only [process_user, if_pos hcap]
  · rfl

/-- Witness for C3: applied at `rc = 0` with all-successful attempts and
the capped environment `envCapW`. -/
theorem retry_count_monotone_capped_witness :
    envCapW.dbRetryCount ≥ MAX_RETRIES ∧
    0 ≤ (like_post (fun _ => LikeAttempt.done true) (fun _ => 0) 0).retry_count ∧
    (like_post (fun _ => LikeAttempt.done true) (fun _ => 0) 0).retry_count ≤
      max 0 MAX_RETRIES ∧
    process_user envCapW = Except.ok ⟨[(statusError, MAX_RETRIES)], 1, 1, 0, false⟩ ∧
    process_user envLockedW =
      Except.ok ⟨[(statusError, MAX_RETRIES)], 1, 1, MAX_RETRIES, true⟩ :=
  have h := retry_count_monotone_capped (fun _ => LikeAttempt.done true) (fun _ => 0)
    0 envCapW (le_refl _)
  ⟨le_refl _, h.1, h.2.1, h.2.2.2.1, h.2.2.2.2⟩

/-! ## Claim C4 — NotFound is never retried; authentication failures -/

/-- C4 counterexample: an authentication-required failure — an error whose
class is in `exceptions_to_retry` and whose status code is `401` — is
classified rate-limited by the retry handler and retried nine times before
the exception finally propagates; it is neither "never retried" nor an
immediate abort. -/
theorem auth_failure_retried_counterexample :
    is_rate_limit netRetryCfg authErr = true ∧
    (execute_with_retries netRetryCfg (fun _ => (Attempt.exn authErr : Attempt Profile))
        (fun _ => 0)).sleeps.length = 9 ∧
    (execute_with_retries netRetryCfg (fun _ => (Attempt.exn authErr : Attempt Profile))
        (fun _ => 0)).result = Except.error authErr := by
  refine ⟨rfl, rfl, rfl⟩

/-- C4 amended: a profile-not-found fetch yields the terminal skipped
status with `retry_count` unchanged, and a `ProfileNotExistsException`
(not in `exceptions_to_retry`) propagates through the retry handler at
once, with no retry and no backoff sleep; an authentication-required
failure (retryable class, status 401) is instead classified rate-limited
and retried with the rate-limit backoff, and when the fetch ultimately
raises, `process_user` propagates the exception without writing any
status. -/
theorem notfound_skip_auth_retried (env env2 : ProcEnv)
    (attempts : Nat → Attempt Profile) (jitter : Nat → ℚ) (e : PyError)
    (hnf : env.fetch = .notFound) (hrc : env.dbRetryCount < MAX_RETRIES)
    (hr2 : env2.fetch = .raised) (hrc2 : env2.dbRetryCount < MAX_RETRIES)
    (hat : attempts 0 = .exn e) :
    process_user env = Except.ok ⟨[(statusSkipped, env.dbRetryCount)], 1, 1, 0, false⟩ ∧
    (e.retryable = false →
      execute_with_retries netRetryCfg attempts jitter = ⟨Except.error e, []⟩) ∧
    (e.retryable = true → extract_status_code e = 401 →
      ∃ rest, (execute_with_retries netRetryCfg attempts jitter).sleeps =
        calculate_delay netRetryCfg 0 true (jitter 0) :: rest) ∧
    process_user env2 = Except.error () := by
  refine ⟨?_, ?_, ?_, ?_⟩
  · simp only [process_user, if_neg (by omega : ¬ env.dbRetryCount ≥ MAX_RETRIES), hnf]
  · intro hre
    simp only [execute_with_retries, netRetryCfg, NETWORK_MAX_RETRIES, execute_aux,
      hat, hre, if_pos]
  · intro hre hsc
    have hrl : is_rate_limit netRetryCfg e = true := by
      simp [is_rate_limit, hsc, netRetryCfg]
    refine ⟨(execute_aux netRetryCfg attempts jitter 1 9).sleeps, ?_⟩
    show (execute_aux netRetryCfg attempts jitter 0 netRetryCfg.maxRetries).sleeps = _
    have h10 : netRetryCfg.maxRetries = 9 + 1 := rfl
    rw [h10]
    simp only [execute_aux, hat, hre]
    simp [hrl]
  · simp only [process_user, if_neg (by omega : ¬ env2.dbRetryCount ≥ MAX_RETRIES), hr2]

/-- Witness for C4 amended: the ghost scenario together with the
non-retryable propagation of `ProfileNotExistsException` (modelled as a
non-retryable error) and a retried 401. -/
theorem notfound_skip_auth_retried_witness :
    process_user envGhostW = Except.ok ⟨[(statusSkipped, 0)], 1, 1, 0, false⟩ ∧
    (∃ rest, (execute_with_retries netRetryCfg
        (fun _ => (Attempt.exn authErr : Attempt Profile)) (fun _ => 0)).sleeps =
      calculate_delay netRetryCfg 0 true 0 :: rest) :=
  have h := notfound_skip_auth_retried envGhostW
    ⟨0, .raised, false, [], fun _ => .done true, fun _ => 0, false⟩
    (fun _ => (Attempt.exn authErr : Attempt Profile)) (fun _ => 0) authErr
    rfl (by decide) rfl (by decide) rfl
  ⟨h.1, h.2.2.1 rfl rfl⟩

/-! ## Claim C5 — fetch and act retry budgets are independent -/

/-- C5 counterexample: with nine transient fetch failures followed by a
successful fetch, then five transient act failures, one entity's pipeline
performs `9 + 5 = 14` retries in total — more than `MAX_RETRIES = 5` and
more than `NETWORK_MAX_RETRIES = 10` — while the persisted `retry_count`
ends at `5`: the two phases do not consume one shared budget. -/
theorem shared_budget_counterexample :
    (execute_with_retries netRetryCfg fetchAttemptsW (fun _ => 0)).sleeps.length = 9 ∧
    (execute_with_retries netRetryCfg fetchAttemptsW (fun _ => 0)).result =
      Except.ok ⟨3, false, 1⟩ ∧
    (like_post (fun _ => LikeAttempt.transientError) (fun _ => 0) 0).retry_count = 5 ∧
    (execute_with_retries netRetryCfg fetchAttemptsW (fun _ => 0)).sleeps.length +
      (like_post (fun _ => LikeAttempt.transientError) (fun _ => 0) 0).retry_count = 14 ∧
    14 > MAX_RETRIES ∧ 14 > NETWORK_MAX_RETRIES := by
  refine ⟨rfl, rfl, rfl, rfl, by decide, by decide⟩

/-- C5 amended: the two phases have independent budgets — the fetch
decorator sleeps at most `NETWORK_MAX_RETRIES - 1` times per call and
never touches the persisted count, while `_like_post` raises the persisted
`retry_count` by at most `MAX_RETRIES - rc`; the total is bounded by the
sum of the two budgets, not by a single shared counter. -/
theorem independent_retry_budgets (attempts : Nat → Attempt Profile)
    (acts : Nat → LikeAttempt) (j1 j2 : Nat → ℚ) (rc : Nat)
    (hrc : rc ≤ MAX_RETRIES) :
    (execute_with_retries netRetryCfg attempts j1).sleeps.length ≤
      NETWORK_MAX_RETRIES - 1 ∧
    (like_post acts j2 rc).retry_count - rc ≤ MAX_RETRIES - rc ∧
    (execute_with_retries netRetryCfg attempts j1).sleeps.length +
        ((like_post acts j2 rc).retry_count - rc) ≤
      (NETWORK_MAX_RETRIES - 1) + MAX_RETRIES := by
  have h1 : (execute_with_retries netRetryCfg attempts j1).sleeps.length ≤
      NETWORK_MAX_RETRIES - 1 := by
    have h := execute_aux_sleeps_le netRetryCfg attempts j1 netRetryCfg.maxRetries 0
    simpa [execute_with_retries, netRetryCfg] using h
  have h2 : (like_post acts j2 rc).retry_count - rc ≤ MAX_RETRIES - rc := by
    have h := like_post_aux_rc_bounds acts j2 (MAX_RETRIES - rc) 0 rc
    simp only [like_post]
    omega
  exact ⟨h1, h2, by omega⟩

/-- Witness for C5 amended: applied at `rc = 0` with the concrete
fetch/act attempt schedules of the counterexample scenario. -/
theorem independent_retry_budgets_witness :
    (0 : Nat) ≤ MAX_RETRIES ∧
    (execute_with_retries netRetryCfg fetchAttemptsW (fun _ => 0)).sleeps.length +
        ((like_post (fun _ => LikeAttempt.transientError) (fun _ => 0) 0).retry_count - 0) ≤
      (NETWORK_MAX_RETRIES - 1) + MAX_RETRIES :=
  have h := independent_retry_budgets fetchAttemptsW
    (fun _ => LikeAttempt.transientError) (fun _ => 0) (fun _ => 0) 0 (by decide)
  ⟨by decide, h.2.2⟩

/-! ## Claim C2 — the semaphore bounds concurrent critical sections -/

/-- C2: for every list of usernames and every interleaving of the spawned
tasks (every state reachable from the initial state by semaphore
acquire/release steps), the number of tasks inside the semaphore-guarded
section of `process_user` never exceeds the configured concurrency
limit. -/
theorem concurrency_bound (usernames : List String) (limit : Nat) (s : SchedState)
    (h : Relation.ReflTransGen SchedStep (initState usernames.length limit) s) :
    insideCount s ≤ limit := by
  have hinv : insideCount (initState usernames.length limit) +
      (initState usernames.length limit).avail = limit := by
    simp [initState, insideCount, countP_replicate_waiting]
  have := sched_reach_invariant h hinv
  omega

/-- Witness for C2: three spawned tasks, limit 2, after one acquire step
the bound holds at the reached state. -/
theorem concurrency_bound_witness :
    insideCount ⟨[TaskPhase.inside, TaskPhase.waiting, TaskPhase.waiting], 1⟩ ≤ 2 := by
  have hstep : SchedStep (initState 3 2)
      ⟨[TaskPhase.inside, TaskPhase.waiting, TaskPhase.waiting], 1⟩ := by
    have h := SchedStep.acquire (List.replicate 3 TaskPhase.waiting) 2 0 (by decide) (by decide)
    simpa [initState] using h
  exact concurrency_bound ["a", "b", "c"] 2 _ (Relation.ReflTransGen.single hstep)

/-! ## Claim C6 — the backoff delay formula and its properties -/

/-- C6: the computed backoff delay is `min(base * 2^n + jitter, MAX_DELAY)`
with the base `RATE_LIMIT_DELAY = 60` when rate-limited and
`initial_delay = MIN_DELAY = 5` otherwise; for jitters in `[0, 1]` the
non-rate-limited delay is non-decreasing in the attempt number (also
across fresh jitters), bounded by `MAX_DELAY = 60`, and at each attempt
the rate-limited delay is at least the non-rate-limited one. -/
theorem backoff_delay_spec (m n : Nat) (j j1 j2 : ℚ)
    (hj0 : 0 ≤ j) (hj1 : j ≤ 1) (h10 : 0 ≤ j1) (h11 : j1 ≤ 1)
    (h20 : 0 ≤ j2) (h21 : j2 ≤ 1) :
    calculate_delay netRetryCfg n false j = min (MIN_DELAY * 2 ^ n + j) MAX_DELAY ∧
    calculate_delay netRetryCfg n true j = min (RATE_LIMIT_DELAY * 2 ^ n + j) MAX_DELAY ∧
    MIN_DELAY < RATE_LIMIT_DELAY ∧
    (m ≤ n → calculate_delay netRetryCfg m false j ≤ calculate_delay netRetryCfg n false j) ∧
    (m < n → calculate_delay netRetryCfg m false j1 ≤ calculate_delay netRetryCfg n false j2) ∧
    calculate_delay netRetryCfg n false j ≤ MAX_DELAY ∧
    calculate_delay netRetryCfg n false j ≤ calculate_delay netRetryCfg n true j := by
  have hpow : ∀ k : Nat, (1 : ℚ) ≤ 2 ^ k := fun k => by
    calc (1 : ℚ) = 2 ^ 0 := (pow_zero 2).symm
    _ ≤ 2 ^ k := pow_le_pow_right₀ (by norm_num) (Nat.zero_le k)
  refine ⟨rfl, rfl, by norm_num [MIN_DELAY, RATE_LIMIT_DELAY], ?_, ?_, ?_, ?_⟩
  · intro hmn
    show min ((5 : ℚ) * 2 ^ m + j) 60 ≤ min ((5 : ℚ) * 2 ^ n + j) 60
    apply min_le_min _ le_rfl
    have : (2 : ℚ) ^ m ≤ 2 ^ n := pow_le_pow_right₀ (by norm_num) hmn
    nlinarith
  · intro hmn
    show min ((5 : ℚ) * 2 ^ m + j1) 60 ≤ min ((5 : ℚ) * 2 ^ n + j2) 60
    apply min_le_min _ le_rfl
    have h2 : (2 : ℚ) ^ (m + 1) ≤ 2 ^ n := pow_le_pow_right₀ (by norm_num) hmn
    have h3 : (2 : ℚ) ^ (m + 1) = 2 * 2 ^ m := by ring
    have h4 := hpow m
    nlinarith
  · exact min_le_right _ _
  · show min ((5 : ℚ) * 2 ^ n + j) 60 ≤ min ((60 : ℚ) * 2 ^ n + j) 60
    apply min_le_min _ le_rfl
    have h5 : (0 : ℚ) ≤ 2 ^ n := by positivity
    nlinarith

/-- Witness for C6 at attempts 1 < 2 with jitters 1/2, 0, 1. -/
theorem backoff_delay_spec_witness :
    calculate_delay netRetryCfg 2 false (1/2) ≤ MAX_DELAY ∧
    calculate_delay netRetryCfg 2 false (1/2) ≤ calculate_delay netRetryCfg 2 true (1/2) ∧
    (1 < 2 → calculate_delay netRetryCfg 1 false 0 ≤ calculate_delay netRetryCfg 2 false 1) :=
  have h := backoff_delay_spec 1 2 (1/2) 0 1
    (by norm_num) (by norm_num) (by norm_num) (by norm_num) (by norm_num) (by norm_num)
  ⟨h.2.2.2.2.2.1, h.2.2.2.2.2.2, h.2.2.2.2.1⟩

/-! ## Claim C9 — a failing metrics cycle terminates the loop -/

/-- C9 counterexample: a cycle that fails propagates its exception out of
`periodic_update_metrics` — the loop does not continue: with a failing
first cycle followed by a healthy one, zero cycles complete and the error
is raised, whereas two healthy cycles complete normally. -/
theorem metrics_failure_counterexample :
    (periodic_update_metrics [CycleOutcome.fail, CycleOutcome.ok]).raised = true ∧
    (periodic_update_metrics [CycleOutcome.fail, CycleOutcome.ok]).cyclesCompleted = 0 ∧
    (periodic_update_metrics [CycleOutcome.ok, CycleOutcome.ok]).raised = false ∧
    (periodic_update_metrics [CycleOutcome.ok, CycleOutcome.ok]).cyclesCompleted = 2 :=
  ⟨rfl, rfl, rfl, rfl⟩

/-- C9 amended: the loop body of `periodic_update_metrics` has no exception
handler, so the loop runs exactly the cycles before the first failure and
the failure, when present, propagates out of the loop instead of being
swallowed. -/
theorem metrics_loop_stops_at_first_failure (outcomes : List CycleOutcome) :
    (periodic_update_metrics outcomes).cyclesCompleted =
      (outcomes.takeWhile (fun c => c == CycleOutcome.ok)).length ∧
    (periodic_update_metrics outcomes).raised =
      outcomes.any (fun c => c == CycleOutcome.fail) := by
  induction outcomes with
  | nil => exact ⟨rfl, rfl⟩
  | cons c rest ih =>
    cases c with
    | ok =>
      simp only [periodic_update_metrics, List.takeWhile_cons, List.any_cons]
      simp [ih.1, ih.2]
    | fail =>
      simp [periodic_update_metrics, List.takeWhile_cons, List.any_cons]

/-! ## Claim C7 — enqueue deduplicates and reports the total count -/

theorem insertOne_processed (now : Nat) (db : DB) (u : String) :
    (insertOne now db u).processedUsers = db.processedUsers := by
  rw [insertOne]
  split <;> rfl

theorem foldl_insertOne_processed (now : Nat) :
    ∀ (us : List String) (db : DB),
      (us.foldl (insertOne now) db).processedUsers = db.processedUsers := by
  intro us
  induction us with
  | nil => intro db; rfl
  | cons u us ih => intro db; rw [List.foldl_cons, ih, insertOne_processed]

theorem mem_names_insertOne (now : Nat) (db : DB) (u x : String) :
    x ∈ (insertOne now db u).names ↔ x = u ∨ x ∈ db.names := by
  by_cases hpres : db.targetUsers.any (fun t => t.username == u) = true
  · have hu : u ∈ db.names := by
      rcases List.any_eq_true.mp hpres with ⟨t, ht, hbeq⟩
      exact List.mem_map.mpr ⟨t, ht, by simpa using hbeq⟩
    rw [insertOne, if_pos hpres]
    constructor
    · exact Or.inr
    · rintro (rfl | hx)
      · exact hu
      · exact hx
  · rw [insertOne, if_neg hpres]
    simp only [DB.names, List.map_append, List.map_cons, List.map_nil,
      List.mem_append, List.mem_singleton]
    tauto

theorem mem_names_insert_foldl (now : Nat) :
    ∀ (us : List String) (db : DB) (x : String),
      x ∈ (us.foldl (insertOne now) db).names ↔ x ∈ us ∨ x ∈ db.names := by
  intro us
  induction us with
  | nil => intro db x; simp
  | cons u us ih =>
    intro db x
    rw [List.foldl_cons, ih, mem_names_insertOne]
    simp only [List.mem_cons]
    tauto

theorem insert_foldl_targets_decomp (now : Nat) :
    ∀ (us : List String) (db : DB),
      ∃ new, (us.foldl (insertOne now) db).targetUsers = db.targetUsers ++ new ∧
        ∀ t ∈ new, t.username ∈ us ∧ t.username ∉ db.names := by
  intro us
  induction us with
  | nil => intro db; exact ⟨[], by simp, by simp⟩
  | cons u us ih =>
    intro db
    rw [List.foldl_cons]
    by_cases hpres : db.targetUsers.any (fun t => t.username == u) = true
    · have heq : insertOne now db u = db := by rw [insertOne, if_pos hpres]
      rw [heq]
      obtain ⟨new, h1, h2⟩ := ih db
      exact ⟨new, h1, fun t ht =>
        ⟨List.mem_cons_of_mem _ (h2 t ht).1, (h2 t ht).2⟩⟩
    · obtain ⟨new, h1, h2⟩ := ih (insertOne now db u)
      refine ⟨⟨db.nextId, u, now, none⟩ :: new, ?_, ?_⟩
      · rw [h1, insertOne, if_neg hpres]
        simp
      · intro t ht
        rcases List.mem_cons.mp ht with rfl | ht'
        · refine ⟨List.mem_cons_self u us, fun hu => ?_⟩
          obtain ⟨tt, htt, hteq⟩ := List.mem_map.mp hu
          exact hpres (List.any_eq_true.mpr ⟨tt, htt, by simp [hteq]⟩)
        · have h3 := h2 t ht'
          exact ⟨List.mem_cons_of_mem _ h3.1,
            fun hx => h3.2 ((mem_names_insertOne now db u t.username).mpr (Or.inr hx))⟩

theorem insert_foldl_nodup (now : Nat) :
    ∀ (us : List String) (db : DB), db.names.Nodup →
      (us.foldl (insertOne now) db).names.Nodup := by
  intro us
  induction us with
  | nil => intro db h; exact h
  | cons u us ih =>
    intro db h
    rw [List.foldl_cons]
    apply ih
    by_cases hpres : db.targetUsers.any (fun t => t.username == u) = true
    · rw [insertOne, if_pos hpres]; exact h
    · rw [insertOne, if_neg hpres]
      have hnm : u ∉ db.names := fun hu => by
        obtain ⟨tt, htt, hteq⟩ := List.mem_map.mp hu
        exact hpres (List.any_eq_true.mpr ⟨tt, htt, by simp [hteq]⟩)
      simp only [DB.names, List.map_append, List.map_cons, List.map_nil]
      exact List.Nodup.append h (List.nodup_singleton u)
        (List.disjoint_singleton.mpr hnm)

/-- C7 counterexample: `insert_users` computes and logs the resulting
total count but returns `None` — nothing is reported to the caller. -/
theorem insert_users_returns_none_counterexample :
    (insert_users ["alice"] 0 DB.empty).returned = none ∧
    (insert_users ["alice"] 0 DB.empty).loggedTotalCount = 1 ∧
    (insert_users ["alice"] 0 DB.empty).db.targetUsers.length = 1 :=
  ⟨rfl, rfl, rfl⟩

/-- C7 amended: enqueueing inserts a `target_users` row only for names not
already present, never duplicates an existing name, leaves every
`processed_users` record untouched, and reports the resulting total count
of rows in its info log entry — while the function itself returns nothing
to the caller. -/
theorem insert_users_spec (usernames : List String) (now : Nat) (db : DB)
    (hnd : db.names.Nodup) :
    (∀ x, x ∈ (insert_users usernames now db).db.names ↔
      x ∈ usernames ∨ x ∈ db.names) ∧
    (∃ new, (insert_users usernames now db).db.targetUsers = db.targetUsers ++ new ∧
      ∀ t ∈ new, t.username ∈ usernames ∧ t.username ∉ db.names) ∧
    (insert_users usernames now db).db.names.Nodup ∧
    (insert_users usernames now db).db.processedUsers = db.processedUsers ∧
    (insert_users usernames now db).loggedTotalCount =
      (insert_users usernames now db).db.targetUsers.length ∧
    (insert_users usernames now db).returned = none := by
  refine ⟨?_, ?_, ?_, ?_, rfl, rfl⟩
  · intro x
    exact mem_names_insert_foldl now usernames db x
  · exact insert_foldl_targets_decomp now usernames db
  · exact insert_foldl_nodup now usernames db hnd
  · exact foldl_insertOne_processed now usernames db

/-- Witness for C7 amended: re-ingesting `"alice"` next to a new name into
the one-row database creates no duplicate. -/
theorem insert_users_spec_witness :
    dbAliceW.names.Nodup ∧
    (insert_users ["alice", "bob"] 5 dbAliceW).db.names.Nodup ∧
    (insert_users ["alice", "bob"] 5 dbAliceW).db.processedUsers =
      dbAliceW.processedUsers :=
  have h := insert_users_spec ["alice", "bob"] 5 dbAliceW (by decide)
  ⟨by decide, h.2.2.1, h.2.2.2.1⟩

/-! ## Claim C8 — pending-user selection and ordering -/

/-- C8: `get_pending_users` returns exactly the usernames of entities whose
processing record is absent, or has status `pending`, or has status
`retry` with `processed_at` older than one hour; the underlying rows are
ordered by `added_at` ascending, and entities with a terminal status
(`liked`, `skipped`, `error`) or a recent `retry` are excluded. -/
theorem pending_users_spec (now : Nat) (db : DB) :
    ∃ rows : List TargetUser,
      get_pending_users now db = rows.map (fun t => t.username) ∧
      rows.Pairwise (fun a b => a.addedAt ≤ b.addedAt) ∧
      (∀ t, t ∈ rows ↔ t ∈ db.targetUsers ∧ pendingPredicate now db t = true) ∧
      (∀ t, pendingPredicate now db t = true ↔
        (db.processedUsers.find? (fun p => p.targetUserId == t.id) = none ∨
          ∃ p, db.processedUsers.find? (fun p => p.targetUserId == t.id) = some p ∧
            (p.status = statusPending ∨
              (p.status = statusRetry ∧ p.processedAt + 3600 < now)))) ∧
      (∀ t p, t ∈ db.targetUsers →
        db.processedUsers.find? (fun q => q.targetUserId == t.id) = some p →
        (p.status = statusLiked ∨ p.status = statusSkipped ∨ p.status = statusError ∨
          (p.status = statusRetry ∧ ¬ p.processedAt + 3600 < now)) →
        t ∉ rows) := by
  have hperm := List.mergeSort_perm db.targetUsers (fun a b => a.addedAt ≤ b.addedAt)
  have hmem : ∀ t : TargetUser,
      t ∈ (db.targetUsers.mergeSort (fun a b => a.addedAt ≤ b.addedAt)).filter
          (pendingPredicate now db) ↔
        t ∈ db.targetUsers ∧ pendingPredicate now db t = true := by
    intro t
    rw [List.mem_filter, hperm.mem_iff]
  refine ⟨(db.targetUsers.mergeSort (fun a b => a.addedAt ≤ b.addedAt)).filter
      (pendingPredicate now db), rfl, ?_, hmem, ?_, ?_⟩
  · have htrans : ∀ a b c : TargetUser, decide (a.addedAt ≤ b.addedAt) = true →
        decide (b.addedAt ≤ c.addedAt) = true → decide (a.addedAt ≤ c.addedAt) = true := by
      intro a b c h1 h2
      simp only [decide_eq_true_eq] at h1 h2 ⊢
      omega
    have htot : ∀ a b : TargetUser,
        (decide (a.addedAt ≤ b.addedAt) || decide (b.addedAt ≤ a.addedAt)) = true := by
      intro a b
      simp only [Bool.or_eq_true, decide_eq_true_eq]
      omega
    have hs := List.sorted_mergeSort htrans htot db.targetUsers
    have hs' : (db.targetUsers.mergeSort
        (fun a b => a.addedAt ≤ b.addedAt)).Pairwise
          (fun a b : TargetUser => a.addedAt ≤ b.addedAt) :=
      hs.imp (fun h => by simpa using h)
    exact List.Pairwise.sublist (List.filter_sublist _) hs'
  · intro t
    simp only [pendingPredicate]
    cases hf : db.processedUsers.find? (fun p => p.targetUserId == t.id) with
    | none => simp
    | some p =>
      simp [Bool.or_eq_true, Bool.and_eq_true, beq_iff_eq, decide_eq_true_eq]
  · intro t p ht hf hterm hmemr
    have hpred := ((hmem t).mp hmemr).2
    simp only [pendingPredicate, hf] at hpred
    rcases hterm with h | h | h | ⟨h, hn⟩ <;>
      rw [h] at hpred <;>
      simp [statusPending, statusRetry, statusLiked, statusSkipped, statusError] at hpred
    exact hn hpred

/-! ## Claim C10 — status update for an unknown username is a no-op -/

/-- C10: calling `update_user_status` with a username that has no
`target_users` row leaves both tables unchanged, creates no
`processed_users` row, raises no error, and only logs a warning. -/
theorem update_status_unknown_user_noop (username status : String)
    (retry_count now : Nat) (db : DB)
    (h : ∀ t ∈ db.targetUsers, t.username ≠ username) :
    (update_user_status username status retry_count now db).db = db ∧
    (update_user_status username status retry_count now db).warned = true := by
  have hf : db.targetUsers.find? (fun t => t.username == username) = none :=
    List.find?_eq_none.mpr (fun t ht => by simp [h t ht])
  rw [update_user_status, hf]
  exact ⟨rfl, rfl⟩

/-- Witness for C10: updating `"bob"` in a database holding only
`"alice"` changes nothing and warns. -/
theorem update_status_unknown_user_noop_witness :
    (update_user_status "bob" statusSkipped 0 7 dbAliceW).db = dbAliceW ∧
    (update_user_status "bob" statusSkipped 0 7 dbAliceW).warned = true :=
  update_status_unknown_user_noop "bob" statusSkipped 0 7 dbAliceW (by decide)

end SocialSense
